import Mathlib

/-!
# symcache: the fetch / cache / fallback pipeline of `main.go`

A shallow embedding of `requestHead`, `requestBody`, `pipeBody` and
`requestHandler`.  The outside world (the upstream servers, the file system,
the `http.ResponseWriter`) is explicit state:

* `Env` says what every upstream URL answers and whether `os.Create` fails;
* `State` holds the file system, the response writer and a chronological log
  of every I/O call the code makes.

The functions of `main.go` are transcribed statement by statement.  Library
calls (`net/http`, `io.ReadFull`, `path/filepath`, `os`) are modelled from their
documented behaviour.  What the model leaves out: `log.Println`, the deferred
`Close` calls, and failures of `fd.Write` and `w.Write`, whose results the code
discards (every write is taken to arrive).

The loop of `pipeBody` runs on fuel, so `pipeBody` and `requestHandler` return
an `Option`; `pipeBody_total` and `serve_total` show that the result is never
`none`.
-/

namespace Symcache

/-! ## Data model -/

abbrev Byte := Nat

/-- Go `error` value; `text` is what the verb `%+v` prints for it. -/
structure GoError where
  text : String
deriving DecidableEq, Repr

/-- The error results `io.ReadFull` can hand back (besides `nil`). -/
inductive IoErr where
  | EOF
  | ErrUnexpectedEOF
  | other (e : GoError)
deriving DecidableEq, Repr

/-- Response body as an `io.ReadCloser`: the reader delivers `data` and then
reports `fin` (clean end of stream, truncated end, or some other error). -/
structure Stream where
  data : List Byte
  fin : IoErr
deriving DecidableEq, Repr

/-- Answer of an upstream to a GET: a status code (which `main.go` never reads)
and the body reader. -/
structure Response where
  statusCode : Nat
  body : Stream
deriving DecidableEq, Repr

/-- What one upstream URL does: `head` is the outcome of `http.Head` (transport
error or status code), `get` the outcome of `client.Do` for the GET. -/
structure Upstream where
  head : Except GoError Nat
  get : Except GoError Response

/-- The world outside the process. -/
structure Env where
  remote : String → Upstream
  /-- `http.NewRequest("GET", url, nil)` fails (unparsable URL) -/
  newRequestErr : String → Option GoError
  /-- `os.Create(path)` fails for a reason outside the model (permissions, ...) -/
  createErr : String → Option GoError

/-- File-system entry. -/
inductive Node where
  | file (content : List Byte)
  | dir
deriving DecidableEq, Repr

/-- Every call that touches the outside world, in the order it is made. -/
inductive Event where
  | head (url : String)
  | get (url : String)
  | readFull (chunk : List Byte) (err : Option IoErr)
  | stat (path : String)
  | mkdirAll (path : String)
  | create (path : String)
  | readFile (path : String)
  | fileWrite (path : String) (chunk : List Byte)
  | wWriteHeader (code : Nat)
  | wSetHeader (key value : String)
  | wWrite (chunk : List Byte)
  | wFprint (text : List Byte)
deriving DecidableEq, Repr

/-- `http.ResponseWriter` as `net/http` implements it: the first `WriteHeader`
(or the first `Write`, with 200) fixes the status; later ones are ignored.
`header` is the map behind `w.Header()`, `status` and `body` are what goes to
the client. -/
structure ResponseWriter where
  header : List (String × String) := []
  status : Option Nat := none
  body : List Byte := []
deriving DecidableEq, Repr

/-- State of one request: file system, response writer, log of calls. -/
structure State where
  fs : String → Option Node
  w : ResponseWriter
  log : List Event

/-! ## Constants of `main.go` -/

def cubeSymbolServer : String := "http://172.16.206.19:8080"
def msSymbolServer : String := "https://msdl.microsoft.com/download/symbols"
def socketBufferSize : Nat := 1024 * 16
def cacheDir : String := "./cache"

def StatusOK : Nat := 200
def StatusNotFound : Nat := 404
def StatusInternalServerError : Nat := 500

/-! ## Library model: text, response writer, file system -/

/-- Bytes of a Go string (UTF-8). -/
def utf8 (s : String) : List Byte :=
  (s.data.flatMap String.utf8EncodeChar).map UInt8.toNat

/-- Rendering of `%+v` for an `error` that may be `nil`. -/
def errText : Option GoError → String
  | some e => e.text
  | none => "<nil>"

def ResponseWriter.WriteHeader (w : ResponseWriter) (code : Nat) : ResponseWriter :=
  match w.status with
  | some _ => w
  | none => { w with status := some code }

def ResponseWriter.Write (w : ResponseWriter) (b : List Byte) : ResponseWriter :=
  let w1 := w.WriteHeader StatusOK
  { w1 with body := w1.body ++ b }

def ResponseWriter.Set (w : ResponseWriter) (key value : String) : ResponseWriter :=
  { w with header := (key, value) :: w.header.filter (fun kv => kv.1 ≠ key) }

def State.record (st : State) (e : Event) : State :=
  { st with log := st.log ++ [e] }

def State.WriteHeader (st : State) (code : Nat) : State :=
  { st with w := st.w.WriteHeader code, log := st.log ++ [Event.wWriteHeader code] }

def State.SetHeader (st : State) (key value : String) : State :=
  { st with w := st.w.Set key value, log := st.log ++ [Event.wSetHeader key value] }

/-- Call `w.Write(b)`. -/
def State.Write (st : State) (b : List Byte) : State :=
  { st with w := st.w.Write b, log := st.log ++ [Event.wWrite b] }

/-- Call `fmt.Fprintf(w, ...)` / `fmt.Fprintln(w, ...)` with the rendered text. -/
def State.Fprint (st : State) (text : String) : State :=
  { st with w := st.w.Write (utf8 text), log := st.log ++ [Event.wFprint (utf8 text)] }

/-- Result of `os.Stat(path)`: `true` when `err == nil`. -/
def State.Stat (st : State) (path : String) : Bool × State :=
  ((st.fs path).isSome, st.record (Event.stat path))

/-- Call `os.MkdirAll(path, 0755)`; only the entry at `path` itself is tracked. -/
def State.MkdirAll (st : State) (path : String) : State :=
  { st with
    fs := fun p => if p = path then (match st.fs path with
                                      | some n => some n
                                      | none => some Node.dir) else st.fs p,
    log := st.log ++ [Event.mkdirAll path] }

/-- Call `os.Create(path)`: fails on a directory or when the environment says so,
otherwise creates or truncates the file. -/
def State.Create (env : Env) (st : State) (path : String) : Option GoError × State :=
  let st1 := st.record (Event.create path)
  match env.createErr path with
  | some e => (some e, st1)
  | none =>
    if st.fs path = some Node.dir then
      (some ⟨"open " ++ path ++ ": is a directory"⟩, st1)
    else
      (none, { st1 with fs := fun p => if p = path then some (Node.file []) else st1.fs p })

/-- Call `fd.Write(chunk)` on the file opened at `path`. -/
def State.FileWrite (st : State) (path : String) (chunk : List Byte) : State :=
  { st with
    fs := fun p => if p = path then (match st.fs path with
                                      | some (Node.file c) => some (Node.file (c ++ chunk))
                                      | other => other) else st.fs p,
    log := st.log ++ [Event.fileWrite path chunk] }

/-- Call `ioutil.ReadFile(path)` on an existing entry. -/
def State.ReadFile (st : State) (path : String) : Except GoError (List Byte) × State :=
  let st1 := st.record (Event.readFile path)
  match st.fs path with
  | some (Node.file c) => (Except.ok c, st1)
  | some Node.dir => (Except.error ⟨"read " ++ path ++ ": is a directory"⟩, st1)
  | none => (Except.error ⟨"open " ++ path ++ ": no such file or directory"⟩, st1)

/-- Library function `http.NotFound(w, req)`, that is
`http.Error(w, "404 page not found", 404)`. -/
def State.NotFound (st : State) : State :=
  let st := st.SetHeader "Content-Type" "text/plain; charset=utf-8"
  let st := st.SetHeader "X-Content-Type-Options" "nosniff"
  let st := st.WriteHeader StatusNotFound
  st.Fprint "404 page not found\n"

/-! ## Library model: `path/filepath` (Unix) -/

/-- Split at every slash, like `strings.Split(s, "/")`. -/
def splitSlash : List Char → List (List Char)
  | [] => [[]]
  | c :: cs =>
    match splitSlash cs with
    | [] => [[]]
    | e :: es => if c = '/' then [] :: e :: es else (c :: e) :: es

/-- The element loop of `filepath.Clean`.  `out` is the output built so far,
last element first. -/
def cleanElems (rooted : Bool) : List (List Char) → List (List Char) → List (List Char)
  | [], out => out
  | e :: es, out =>
    if e = [] then cleanElems rooted es out
    else if e = ['.'] then cleanElems rooted es out
    else if e = ['.', '.'] then
      match out with
      | [] => if rooted then cleanElems rooted es [] else cleanElems rooted es [e]
      | top :: below =>
        if top = ['.', '.'] then cleanElems rooted es (e :: top :: below)
        else cleanElems rooted es below
    else cleanElems rooted es (e :: out)

/-- Glue path elements with single slashes. -/
def joinSlash : List (List Char) → List Char
  | [] => []
  | [e] => e
  | e :: es => e ++ '/' :: joinSlash es

/-- Library function `filepath.Clean` on the characters of a path. -/
def cleanChars (path : List Char) : List Char :=
  if path = [] then ['.']
  else
    let rooted := path.head? = some '/'
    let body := joinSlash (cleanElems rooted (splitSlash path) []).reverse
    if rooted then '/' :: body
    else if body = [] then ['.'] else body

def filepathClean (path : String) : String := String.mk (cleanChars path.data)

/-- Library function `filepath.Join(a, b)` with a non-empty `a`. -/
def filepathJoin (a b : String) : String := filepathClean (a ++ "/" ++ b)

/-- Characters up to and including the last slash. -/
def uptoLastSlash : List Char → List Char
  | [] => []
  | c :: cs =>
    if cs.contains '/' then c :: uptoLastSlash cs
    else if c = '/' then [c] else []

/-- Library function `filepath.Dir`. -/
def filepathDir (path : String) : String := String.mk (cleanChars (uptoLastSlash path.data))

/-- The path is the directory `root` itself or lies below it. -/
def insideDir (root path : String) : Bool :=
  path == root || (root.data ++ ['/']).isPrefixOf path.data

/-! ## `io.ReadFull` -/

/-- Call `io.ReadFull(stream, buf)` with `len(buf) = n`: the bytes `buf[:nr]`,
the error, and the reader afterwards. -/
def readFull (s : Stream) (n : Nat) : List Byte × Option IoErr × Stream :=
  if n ≤ s.data.length then
    (s.data.take n, none, { s with data := s.data.drop n })
  else
    let err := if s.data ≠ [] ∧ s.fin = IoErr.EOF then IoErr.ErrUnexpectedEOF else s.fin
    (s.data, some err, { s with data := [] })

/-! ## `main.go` -/

def requestHead (env : Env) (requestUrl : String) (st : State) :
    (Nat × Option GoError) × State :=
  let st := st.record (Event.head requestUrl)
  match (env.remote requestUrl).head with
  | Except.error err => ((StatusNotFound, some err), st)
  | Except.ok code => ((code, none), st)

def requestBody (env : Env) (requestUrl : String) (st : State) :
    (Option Stream × Option GoError) × State :=
  match env.newRequestErr requestUrl with
  | some err => ((none, some err), st)
  | none =>
    let st := st.record (Event.get requestUrl)
    match (env.remote requestUrl).get with
    | Except.error err => ((none, some err), st)
    | Except.ok resp => ((some resp.body, none), st)

/-- The `for` loop of `pipeBody` (lines 82-95).  `err` is the variable `err` of
the loop condition; each unit of fuel pays for one test of the condition, and
the result is `none` only when the fuel runs out before the loop ends. -/
def streamLoop (localPath : String) :
    Nat → Option IoErr → Stream → State → Option (Bool × State)
  | 0, _, _, _ => none
  | fuel + 1, err, stream, st =>
    if err = some IoErr.EOF ∨ err = some IoErr.ErrUnexpectedEOF then
      some (true, st)
    else
      match readFull stream socketBufferSize with
      | (chunk, err, stream) =>
        let st := st.record (Event.readFull chunk err)
        match err with
        | some (IoErr.other e) =>
          let st := st.WriteHeader StatusInternalServerError
          let st := st.Fprint ("Error reading file: " ++ e.text)
          some (false, st)
        | err =>
          -- write to local file
          let st := st.FileWrite localPath chunk
          -- write to remote client
          let st := st.Write chunk
          streamLoop localPath fuel err stream st

def pipeBody (env : Env) (requestUrl localPath : String) (st : State) :
    Option (Bool × State) :=
  match requestHead env requestUrl st with
  | ((_, some err), st) =>
    let st := st.WriteHeader StatusInternalServerError
    let st := st.Fprint ("Error getting remote resource information: " ++ err.text)
    some (false, st)
  | ((_, none), st) =>
    match requestBody env requestUrl st with
    | ((none, err), st) =>
      let st := st.WriteHeader StatusInternalServerError
      let st := st.Fprint ("Error requesting body: " ++ errText err)
      some (false, st)
    | ((some stream, _), st) =>
      let dir := filepathDir localPath
      let st := match st.Stat dir with
        | (true, st) => st
        | (false, st) => st.MkdirAll dir
      match State.Create env st localPath with
      | (some err, st) =>
        let st := st.WriteHeader StatusInternalServerError
        let st := st.Fprint ("Error creating file: " ++ err.text)
        some (false, st)
      | (none, st) =>
        let st := st.WriteHeader StatusOK
        let st := st.SetHeader "Content-Type" "application/octet-stream"
        -- `err` is nil after `os.Create`; the fuel is enough for any body
        streamLoop localPath (stream.data.length + 2) none stream st

def requestHandler (env : Env) (path : String) (st : State) : Option State :=
  -- 1. check local cache
  let localPath := filepathJoin cacheDir path
  match st.Stat localPath with
  | (true, st) =>
    match st.ReadFile localPath with
    | (Except.error err, st) =>
      let st := st.WriteHeader StatusInternalServerError
      let st := st.Fprint ("Error reading file: " ++ err.text)
      some st
    | (Except.ok fileBytes, st) =>
      let st := st.WriteHeader StatusOK
      let st := st.SetHeader "Content-Type" "application/octet-stream"
      let st := st.Write fileBytes
      some st
  | (false, st) =>
    -- 2. if not found, fetch from remote, check Cube Symbol server
    let requestUrl := cubeSymbolServer ++ path
    match pipeBody env requestUrl localPath st with
    | none => none
    | some (true, st) => some st
    | some (false, st) =>
      -- 3. if not found, fetch from remote, check Microsoft Symbol server
      let requestUrl := msSymbolServer ++ path
      match pipeBody env requestUrl localPath st with
      | none => none
      | some (true, st) => some st
      | some (false, st) =>
        -- 4. if not found, return 404 not found
        some st.NotFound

/-- State at the start of a request: the file system as it is, a response
writer nothing has been written to, an empty log. -/
def fresh (fs : String → Option Node) : State := { fs := fs, w := {}, log := [] }

/-- One request for `path` against the file system `fs`. -/
def serve (env : Env) (fs : String → Option Node) (path : String) : Option State :=
  requestHandler env path (fresh fs)

/-! ## Description of a run of the loop -/

/-- One round of the loop whose read did not fail: read, write to the local
file, write to the client. -/
def teeStep (localPath : String) (st : State) (r : List Byte × Option IoErr) : State :=
  ((st.record (Event.readFull r.1 r.2)).FileWrite localPath r.1).Write r.1

/-- The round whose read failed with an error other than the two end-of-stream
errors: `rest` is `buf[:nr]`, which is written nowhere. -/
def failStep (st : State) (rest : List Byte) (e : GoError) : State :=
  (((st.record (Event.readFull rest (some (IoErr.other e)))).WriteHeader
    StatusInternalServerError).Fprint ("Error reading file: " ++ e.text))

/-- Events of one round of the loop whose read did not fail. -/
def teeEvents (localPath : String) (r : List Byte × Option IoErr) : List Event :=
  [Event.readFull r.1 r.2, Event.fileWrite localPath r.1, Event.wWrite r.1]

/-- Chunks handed to `w.Write`, in log order. -/
def clientChunks (log : List Event) : List (List Byte) :=
  log.filterMap (fun e => match e with
    | Event.wWrite c => some c
    | _ => none)

/-- Chunks handed to `fd.Write` for the file at `localPath`, in log order. -/
def fileChunks (localPath : String) (log : List Event) : List (List Byte) :=
  log.filterMap (fun e => match e with
    | Event.fileWrite p c => if p = localPath then some c else none
    | _ => none)

/-- Results `buf[:nr]` of all calls of `io.ReadFull`, in log order, whatever the
error returned with them. -/
def readChunks (log : List Event) : List (List Byte) :=
  log.filterMap (fun e => match e with
    | Event.readFull c _ => some c
    | _ => none)

/-- All bytes sent to the client, in log order: the chunks of `w.Write` and the
texts of `fmt.Fprintf(w, ...)`. -/
def clientBytes (log : List Event) : List Byte :=
  (log.filterMap (fun e => match e with
    | Event.wWrite c => some c
    | Event.wFprint t => some t
    | _ => none)).flatten

/-- All bytes written to the file at `localPath`, in log order. -/
def fileBytes (localPath : String) (log : List Event) : List Byte :=
  (fileChunks localPath log).flatten

/-- State of `pipeBody` when the loop starts, that is after a probe, a fetch and
a file creation that all succeeded (lines 53-79). -/
def loopStart (requestUrl localPath : String) (st : State) : State :=
  let st := st.record (Event.head requestUrl)
  let st := st.record (Event.get requestUrl)
  let dir := filepathDir localPath
  let st := match st.Stat dir with
    | (true, st) => st
    | (false, st) => st.MkdirAll dir
  let st1 := st.record (Event.create localPath)
  let st := { st1 with fs := fun p => if p = localPath then some (Node.file []) else st1.fs p }
  let st := st.WriteHeader StatusOK
  st.SetHeader "Content-Type" "application/octet-stream"

/-- The single element of the cleaned cache root. -/
def cacheName : List Char := ['c', 'a', 'c', 'h', 'e']

/-- Walking the elements of a request path from depth `depth` below the cache
root never climbs above the root: every `..` element finds an ordinary element
before it to cancel. -/
def staysBelow : Nat → List (List Char) → Bool
  | _, [] => true
  | depth, e :: es =>
    if e = [] then staysBelow depth es
    else if e = ['.'] then staysBelow depth es
    else if e = ['.', '.'] then
      match depth with
      | 0 => false
      | d + 1 => staysBelow d es
    else staysBelow (depth + 1) es

/-- Events that a call `pipeBody(w, req, requestUrl, localPath)` may add to the
log after its probe: no second probe, a fetch of `requestUrl` only, file
creation and file writes at `localPath` only, and no cache read. -/
def allowedIn (requestUrl localPath : String) : Event → Bool
  | Event.head _ => false
  | Event.get u => u = requestUrl
  | Event.create p => p = localPath
  | Event.fileWrite p _ => p = localPath
  | Event.readFile _ => false
  | _ => true

/-- The event creates or writes no file other than `localPath`. -/
def writesOnlyTo (localPath : String) : Event → Bool
  | Event.create p => p = localPath
  | Event.fileWrite p _ => p = localPath
  | _ => true

/-! ## Concrete worlds -/

def refused : GoError := ⟨"dial tcp: connection refused"⟩

def cubeUrl : String := cubeSymbolServer ++ "/a.pdb"
def msUrl : String := msSymbolServer ++ "/a.pdb"

/-- An upstream that cannot be reached. -/
def unreachable : Upstream :=
  { head := Except.error refused, get := Except.error refused }

/-- An upstream that has the resource with the given bytes. -/
def serving (content : List Byte) : Upstream :=
  { head := Except.ok 200, get := Except.ok ⟨200, ⟨content, IoErr.EOF⟩⟩ }

/-- An upstream that answers the probe with `probeCode` and the GET with
`getCode` and the given bytes. -/
def answering (probeCode getCode : Nat) (content : List Byte) : Upstream :=
  { head := Except.ok probeCode, get := Except.ok ⟨getCode, ⟨content, IoErr.EOF⟩⟩ }

/-- An upstream whose body breaks off with a connection error after `sent`. -/
def breaking (sent : List Byte) : Upstream :=
  { head := Except.ok 200,
    get := Except.ok ⟨200, ⟨sent, IoErr.other ⟨"read tcp: connection reset by peer"⟩⟩⟩ }

/-- World in which the two upstreams behave as given for the request path. -/
def world (path : String) (cube ms : Upstream) : Env :=
  { remote := fun url =>
      if url = cubeSymbolServer ++ path then cube
      else if url = msSymbolServer ++ path then ms
      else unreachable,
    newRequestErr := fun _ => none,
    createErr := fun _ => none }

/-- Empty cache. -/
def noFiles : String → Option Node := fun _ => none

/-- Cache that holds `/a.pdb`. -/
def oneFile (content : List Byte) : String → Option Node :=
  fun p => if p = "cache/a.pdb" then some (Node.file content) else none

/-- A body of `n` bytes. -/
def bodyOf (n : Nat) : List Byte := List.replicate n 7

/-! ## The streaming loop -/

theorem socketBufferSize_pos : 0 < socketBufferSize := by decide

theorem streamLoop_spec (lp : String) : ∀ (fuel : Nat) (s : Stream) (st : State),
    s.data.length + 2 ≤ fuel →
    ∃ (reads : List (List Byte × Option IoErr)) (rest : List Byte),
      s.data = (reads.map Prod.fst).flatten ++ rest ∧
      (streamLoop lp fuel none s st =
        match s.fin with
        | IoErr.other e => some (false, failStep (reads.foldl (teeStep lp) st) rest e)
        | _ => some (true, reads.foldl (teeStep lp) st)) ∧
      ((∀ e, s.fin ≠ IoErr.other e) → rest = []) ∧
      (∀ r ∈ reads, ∀ e, r.2 ≠ some (IoErr.other e)) ∧
      ((∃ e, s.fin = IoErr.other e) → rest.length < socketBufferSize) := by
  intro fuel
  induction fuel with
  | zero => intro s st h; omega
  | succ fuel ih =>
    intro s st h
    by_cases hn : socketBufferSize ≤ s.data.length
    · have hpos := socketBufferSize_pos
      have hlen : (s.data.drop socketBufferSize).length + 2 ≤ fuel := by
        simp only [List.length_drop]; omega
      obtain ⟨reads, rest, hdata, hrun, hrest, hgood, hshort⟩ :=
        ih { s with data := s.data.drop socketBufferSize }
          (teeStep lp st (s.data.take socketBufferSize, none)) hlen
      refine ⟨(s.data.take socketBufferSize, none) :: reads, rest, ?_, ?_, hrest, ?_, hshort⟩
      · simp only [List.map_cons, List.flatten_cons, List.append_assoc]
        simp only at hdata
        rw [← hdata, List.take_append_drop]
      · simp only [streamLoop, readFull, hn, if_true]
        simp only [List.foldl_cons]
        simpa [teeStep] using hrun
      · intro r hr e
        rcases List.mem_cons.mp hr with rfl | hr
        · simp
        · exact hgood r hr e
    · obtain ⟨k, rfl⟩ : ∃ k, fuel = k + 1 := ⟨fuel - 1, by omega⟩
      cases hfin : s.fin with
      | other e =>
        refine ⟨[], s.data, by simp, ?_, fun h => absurd rfl (h e), by simp, fun _ => by omega⟩
        simp [streamLoop, readFull, hn, hfin, failStep]
      | EOF =>
        by_cases hd : s.data = []
        · refine ⟨[(s.data, some IoErr.EOF)], [], by simp, ?_, fun _ => rfl, by simp, fun h => by simp [hfin] at h⟩
          have hz : socketBufferSize ≠ 0 := by decide
          simp [streamLoop, readFull, hfin, hd, teeStep, hz]
        · refine ⟨[(s.data, some IoErr.ErrUnexpectedEOF)], [], by simp, ?_, fun _ => rfl, by simp, fun h => by simp [hfin] at h⟩
          simp [streamLoop, readFull, hn, hfin, hd, teeStep]
      | ErrUnexpectedEOF =>
        refine ⟨[(s.data, some IoErr.ErrUnexpectedEOF)], [], by simp, ?_, fun _ => rfl, by simp, fun h => by simp [hfin] at h⟩
        simp [streamLoop, readFull, hn, hfin, teeStep]

theorem foldl_teeStep_log (lp : String) (reads : List (List Byte × Option IoErr)) :
    ∀ st : State, (reads.foldl (teeStep lp) st).log = st.log ++ reads.flatMap (teeEvents lp) := by
  induction reads with
  | nil => intro st; simp
  | cons r rs ih =>
    intro st
    simp [List.foldl_cons, ih, teeStep, teeEvents, State.record, State.FileWrite, State.Write]

theorem foldl_teeStep_body (lp : String) (reads : List (List Byte × Option IoErr)) :
    ∀ st : State, (reads.foldl (teeStep lp) st).w.body = st.w.body ++ (reads.map Prod.fst).flatten := by
  induction reads with
  | nil => intro st; simp
  | cons r rs ih =>
    intro st
    simp only [List.foldl_cons, ih, List.map_cons, List.flatten_cons]
    simp only [teeStep, State.record, State.FileWrite, State.Write, ResponseWriter.Write,
      ResponseWriter.WriteHeader]
    cases st.w.status <;> simp

theorem foldl_teeStep_status (lp : String) (reads : List (List Byte × Option IoErr)) :
    ∀ (st : State) (c : Nat), st.w.status = some c →
      (reads.foldl (teeStep lp) st).w.status = some c := by
  induction reads with
  | nil => intro st c h; simpa using h
  | cons r rs ih =>
    intro st c h
    simp only [List.foldl_cons]
    apply ih
    simp [teeStep, State.record, State.FileWrite, State.Write, ResponseWriter.Write,
      ResponseWriter.WriteHeader, h]

theorem foldl_teeStep_file (lp : String) (reads : List (List Byte × Option IoErr)) :
    ∀ (st : State) (c : List Byte), st.fs lp = some (Node.file c) →
      (reads.foldl (teeStep lp) st).fs lp = some (Node.file (c ++ (reads.map Prod.fst).flatten)) := by
  induction reads with
  | nil => intro st c h; simpa using h
  | cons r rs ih =>
    intro st c h
    simp only [List.foldl_cons, List.map_cons, List.flatten_cons, ← List.append_assoc]
    apply ih
    simp [teeStep, State.record, State.FileWrite, State.Write, h]

theorem foldl_teeStep_other (lp : String) (reads : List (List Byte × Option IoErr)) :
    ∀ (st : State) (p : String), p ≠ lp → (reads.foldl (teeStep lp) st).fs p = st.fs p := by
  induction reads with
  | nil => intro st p h; simp
  | cons r rs ih =>
    intro st p h
    simp only [List.foldl_cons]
    rw [ih _ p h]
    simp [teeStep, State.record, State.FileWrite, State.Write, h]

theorem clientChunks_tee (lp : String) (reads : List (List Byte × Option IoErr)) :
    clientChunks (reads.flatMap (teeEvents lp)) = reads.map Prod.fst := by
  induction reads with
  | nil => rfl
  | cons r rs ih =>
    simp only [List.flatMap_cons, clientChunks, List.filterMap_append, List.map_cons] at ih ⊢
    rw [ih]; simp [teeEvents]

theorem fileChunks_tee (lp : String) (reads : List (List Byte × Option IoErr)) :
    fileChunks lp (reads.flatMap (teeEvents lp)) = reads.map Prod.fst := by
  induction reads with
  | nil => rfl
  | cons r rs ih =>
    simp only [List.flatMap_cons, fileChunks, List.filterMap_append, List.map_cons] at ih ⊢
    rw [ih]; simp [teeEvents]

theorem readChunks_tee (lp : String) (reads : List (List Byte × Option IoErr)) :
    readChunks (reads.flatMap (teeEvents lp)) = reads.map Prod.fst := by
  induction reads with
  | nil => rfl
  | cons r rs ih =>
    simp only [List.flatMap_cons, readChunks, List.filterMap_append, List.map_cons] at ih ⊢
    rw [ih]; simp [teeEvents]

theorem mem_flatMap_teeEvents (lp : String) (reads : List (List Byte × Option IoErr)) (ev : Event) :
    ev ∈ reads.flatMap (teeEvents lp) →
      (∃ c err, ev = Event.readFull c err) ∨ (∃ c, ev = Event.fileWrite lp c) ∨
        (∃ c, ev = Event.wWrite c) := by
  intro h
  obtain ⟨r, _, hr⟩ := List.mem_flatMap.mp h
  simp only [teeEvents, List.mem_cons, List.mem_singleton, List.not_mem_nil, or_false] at hr
  rcases hr with h | h | h
  · exact Or.inl ⟨_, _, h⟩
  · exact Or.inr (Or.inl ⟨_, h⟩)
  · exact Or.inr (Or.inr ⟨_, h⟩)

/-- A body that ends with end-of-stream (clean or truncated) is teed whole. -/
theorem streamLoop_ok (lp : String) (s : Stream) (st : State)
    (hfin : ∀ e, s.fin ≠ IoErr.other e) :
    ∃ reads : List (List Byte × Option IoErr),
      (reads.map Prod.fst).flatten = s.data ∧
      streamLoop lp (s.data.length + 2) none s st = some (true, reads.foldl (teeStep lp) st) := by
  obtain ⟨reads, rest, hdata, hrun, hrest, -, -⟩ := streamLoop_spec lp (s.data.length + 2) s st le_rfl
  have hr := hrest hfin
  subst hr
  refine ⟨reads, by simpa using hdata.symm, ?_⟩
  rw [hrun]
  cases h : s.fin with
  | other e => exact absurd h (hfin e)
  | EOF => rfl
  | ErrUnexpectedEOF => rfl

/-- The loop always ends, and what it leaves behind. -/
theorem streamLoop_total (lp : String) (s : Stream) (st : State) :
    ∃ (ok : Bool) (st2 : State) (evs : List Event),
      streamLoop lp (s.data.length + 2) none s st = some (ok, st2) ∧
      st2.log = st.log ++ evs ∧
      (∀ c, st.w.status = some c → st2.w.status = some c) ∧
      (∀ p, p ≠ lp → st2.fs p = st.fs p) ∧
      (∀ ev ∈ evs, (∃ c err, ev = Event.readFull c err) ∨ (∃ c, ev = Event.fileWrite lp c) ∨
        (∃ c, ev = Event.wWrite c) ∨ ev = Event.wWriteHeader StatusInternalServerError ∨
        (∃ t, ev = Event.wFprint t)) := by
  obtain ⟨reads, rest, -, hrun, -, -, -⟩ := streamLoop_spec lp (s.data.length + 2) s st le_rfl
  have hmem : ∀ ev ∈ reads.flatMap (teeEvents lp),
      (∃ c err, ev = Event.readFull c err) ∨ (∃ c, ev = Event.fileWrite lp c) ∨
        (∃ c, ev = Event.wWrite c) ∨ ev = Event.wWriteHeader StatusInternalServerError ∨
        (∃ t, ev = Event.wFprint t) := by
    intro ev h
    rcases mem_flatMap_teeEvents lp reads ev h with h | h | h
    · exact Or.inl h
    · exact Or.inr (Or.inl h)
    · exact Or.inr (Or.inr (Or.inl h))
  cases hfin : s.fin with
  | other e =>
    rw [hfin] at hrun
    refine ⟨false, _, reads.flatMap (teeEvents lp) ++
      [Event.readFull rest (some (IoErr.other e)), Event.wWriteHeader StatusInternalServerError,
        Event.wFprint (utf8 ("Error reading file: " ++ e.text))], hrun, ?_, ?_, ?_, ?_⟩
    · simp [failStep, State.record, State.WriteHeader, State.Fprint, foldl_teeStep_log]
    · intro c hc
      have := foldl_teeStep_status lp reads st c hc
      simp [failStep, State.record, State.WriteHeader, State.Fprint, ResponseWriter.WriteHeader,
        ResponseWriter.Write, this]
    · intro p hp
      simp [failStep, State.record, State.WriteHeader, State.Fprint, foldl_teeStep_other lp reads st p hp]
    · intro ev hev
      rcases List.mem_append.mp hev with h | h
      · exact hmem ev h
      · simp only [List.mem_cons, List.mem_singleton, List.not_mem_nil, or_false] at h
        rcases h with h | h | h
        · exact Or.inl ⟨_, _, h⟩
        · exact Or.inr (Or.inr (Or.inr (Or.inl h)))
        · exact Or.inr (Or.inr (Or.inr (Or.inr ⟨_, h⟩)))
  | EOF =>
    rw [hfin] at hrun
    exact ⟨true, _, reads.flatMap (teeEvents lp), hrun, foldl_teeStep_log lp reads st,
      foldl_teeStep_status lp reads st, fun p hp => foldl_teeStep_other lp reads st p hp, hmem⟩
  | ErrUnexpectedEOF =>
    rw [hfin] at hrun
    exact ⟨true, _, reads.flatMap (teeEvents lp), hrun, foldl_teeStep_log lp reads st,
      foldl_teeStep_status lp reads st, fun p hp => foldl_teeStep_other lp reads st p hp, hmem⟩

/-- At every point of a sequence of rounds, what has been sent to the client is
an initial segment of what has been written to the file. -/
theorem tee_client_behind_file (lp : String) :
    ∀ (reads : List (List Byte × Option IoErr)) (k : Nat),
      clientBytes ((reads.flatMap (teeEvents lp)).take k) <+:
        fileBytes lp ((reads.flatMap (teeEvents lp)).take k) := by
  intro reads
  induction reads with
  | nil => intro k; simp [clientBytes, fileBytes, fileChunks]
  | cons r rs ih =>
    intro k
    match k with
    | 0 => simp [clientBytes, fileBytes, fileChunks]
    | 1 => simp [clientBytes, fileBytes, fileChunks, teeEvents]
    | 2 => simp [clientBytes, fileBytes, fileChunks, teeEvents]
    | k + 3 =>
      have := ih k
      simp only [clientBytes, fileBytes, fileChunks] at this
      simp [clientBytes, fileBytes, fileChunks, teeEvents, this]

/-! ## `pipeBody` -/

theorem loopStart_log (url lp : String) (st : State) :
    ∃ evs0, (loopStart url lp st).log = st.log ++ Event.head url :: Event.get url :: evs0 ∧
      clientChunks evs0 = [] ∧ fileChunks lp evs0 = [] := by
  by_cases hs : (st.fs (filepathDir lp)).isSome
  · exact ⟨[Event.stat (filepathDir lp), Event.create lp, Event.wWriteHeader StatusOK,
      Event.wSetHeader "Content-Type" "application/octet-stream"],
      by simp [loopStart, State.Stat, State.record, State.WriteHeader, State.SetHeader, hs],
      rfl, rfl⟩
  · exact ⟨[Event.stat (filepathDir lp), Event.mkdirAll (filepathDir lp), Event.create lp,
      Event.wWriteHeader StatusOK, Event.wSetHeader "Content-Type" "application/octet-stream"],
      by simp [loopStart, State.Stat, State.record, State.WriteHeader, State.SetHeader,
        State.MkdirAll, hs],
      rfl, rfl⟩

theorem loopStart_status (url lp : String) (st : State) :
    (loopStart url lp st).w.status = some (st.w.status.getD StatusOK) := by
  by_cases hs : (st.fs (filepathDir lp)).isSome <;>
    cases hst : st.w.status <;>
    simp [loopStart, State.Stat, State.record, State.WriteHeader, State.SetHeader,
      State.MkdirAll, ResponseWriter.WriteHeader, ResponseWriter.Set, hs, hst]

theorem loopStart_file (url lp : String) (st : State) :
    (loopStart url lp st).fs lp = some (Node.file []) := by
  simp [loopStart, State.WriteHeader, State.SetHeader]

theorem loopStart_body (url lp : String) (st : State) :
    (loopStart url lp st).w.body = st.w.body := by
  by_cases hs : (st.fs (filepathDir lp)).isSome <;>
    cases hst : st.w.status <;>
    simp [loopStart, State.Stat, State.record, State.WriteHeader, State.SetHeader,
      State.MkdirAll, ResponseWriter.WriteHeader, ResponseWriter.Set, hs, hst]

theorem pipeBody_eq_loop (env : Env) (requestUrl localPath : String) (st : State)
    (code : Nat) (resp : Response)
    (hhead : (env.remote requestUrl).head = Except.ok code)
    (hreq : env.newRequestErr requestUrl = none)
    (hget : (env.remote requestUrl).get = Except.ok resp)
    (hcreate : env.createErr localPath = none)
    (hdir : st.fs localPath ≠ some Node.dir)
    (hne : filepathDir localPath ≠ localPath) :
    pipeBody env requestUrl localPath st =
      streamLoop localPath (resp.body.data.length + 2) none resp.body
        (loopStart requestUrl localPath st) := by
  have hne2 : localPath ≠ filepathDir localPath := fun h => hne h.symm
  by_cases hs : (st.fs (filepathDir localPath)).isSome
  · simp [pipeBody, requestHead, requestBody, loopStart, State.Stat, State.Create, State.record,
      hhead, hreq, hget, hcreate, hs, hdir]
  · simp [pipeBody, requestHead, requestBody, loopStart, State.Stat, State.Create, State.record,
      State.MkdirAll, hhead, hreq, hget, hcreate, hs, hdir, hne2]

theorem status_after_error (w : ResponseWriter) (t : List Byte) :
    ((w.WriteHeader StatusInternalServerError).Write t).status =
      some (w.status.getD StatusInternalServerError) := by
  cases h : w.status <;> simp [ResponseWriter.WriteHeader, ResponseWriter.Write, h]

/-- Every call of `pipeBody` returns, and what it leaves behind. -/
theorem pipeBody_total (env : Env) (url lp : String) (st : State) :
    ∃ (ok : Bool) (st2 : State) (evs : List Event),
      pipeBody env url lp st = some (ok, st2) ∧
      st2.log = st.log ++ Event.head url :: evs ∧
      (∀ ev ∈ evs, allowedIn url lp ev = true) ∧
      (∃ c0, (c0 = StatusOK ∨ c0 = StatusInternalServerError) ∧
        st2.w.status = some (st.w.status.getD c0)) := by
  unfold pipeBody requestHead
  cases hh : (env.remote url).head with
  | error e =>
    refine ⟨false, _, [Event.wWriteHeader StatusInternalServerError, Event.wFprint (utf8 ("Error getting remote resource information: " ++ e.text))], rfl,
      by simp [State.record, State.WriteHeader, State.Fprint], ?_,
      StatusInternalServerError, Or.inr rfl, ?_⟩
    · simp [allowedIn]
    · simp [State.record, State.WriteHeader, State.Fprint, status_after_error]
  | ok code =>
    simp only [requestBody]
    cases hr : env.newRequestErr url with
    | some e =>
      refine ⟨false, _, [Event.wWriteHeader StatusInternalServerError, Event.wFprint (utf8 ("Error requesting body: " ++ errText (some e)))], rfl,
        by simp [State.record, State.WriteHeader, State.Fprint], ?_,
        StatusInternalServerError, Or.inr rfl, ?_⟩
      · simp [allowedIn]
      · simp [State.record, State.WriteHeader, State.Fprint, status_after_error]
    | none =>
      cases hg : (env.remote url).get with
      | error e =>
        refine ⟨false, _, [Event.get url, Event.wWriteHeader StatusInternalServerError,
          Event.wFprint (utf8 ("Error requesting body: " ++ errText (some e)))], rfl,
          by simp [State.record, State.WriteHeader, State.Fprint], ?_,
          StatusInternalServerError, Or.inr rfl, ?_⟩
        · simp [allowedIn]
        · simp [State.record, State.WriteHeader, State.Fprint, status_after_error]
      | ok resp =>
        simp only []
        -- the state after `os.Stat(dir)` and, if needed, `os.MkdirAll(dir)`
        obtain ⟨st3, evs3, hst3, hlog3, hw3, hev3⟩ : ∃ (st3 : State) (evs3 : List Event),
            (match ((st.record (Event.head url)).record (Event.get url)).Stat (filepathDir lp) with
              | (true, st) => st
              | (false, st) => st.MkdirAll (filepathDir lp)) = st3 ∧
            st3.log = st.log ++ Event.head url :: Event.get url :: evs3 ∧ st3.w = st.w ∧
            (∀ ev ∈ evs3, allowedIn url lp ev = true) := by
          by_cases hs : (st.fs (filepathDir lp)).isSome
          · refine ⟨_, [Event.stat (filepathDir lp)], rfl, ?_, ?_, ?_⟩ <;>
              simp [State.Stat, State.record, hs, allowedIn]
          · refine ⟨_, [Event.stat (filepathDir lp), Event.mkdirAll (filepathDir lp)], rfl,
              ?_, ?_, ?_⟩ <;>
              simp [State.Stat, State.record, State.MkdirAll, hs, allowedIn]
        rw [hst3]
        unfold State.Create
        cases hc : env.createErr lp with
        | some e =>
          refine ⟨false, _, Event.get url :: (evs3 ++ [Event.create lp,
            Event.wWriteHeader StatusInternalServerError,
            Event.wFprint (utf8 ("Error creating file: " ++ e.text))]), rfl, ?_, ?_,
            StatusInternalServerError, Or.inr rfl, ?_⟩
          · simp [State.record, State.WriteHeader, State.Fprint, hlog3]
          · intro ev hev
            simp only [List.mem_cons, List.mem_append, List.mem_singleton, List.not_mem_nil,
              or_false] at hev
            rcases hev with h | h | h | h | h
            · subst h; simp [allowedIn]
            · exact hev3 ev h
            · subst h; simp [allowedIn]
            · subst h; simp [allowedIn]
            · subst h; simp [allowedIn]
          · simp [State.record, State.WriteHeader, State.Fprint, status_after_error, hw3]
        | none =>
          by_cases hd : st3.fs lp = some Node.dir
          · simp only [hd, if_true]
            refine ⟨false, _, Event.get url :: (evs3 ++ [Event.create lp,
              Event.wWriteHeader StatusInternalServerError,
              Event.wFprint (utf8 ("Error creating file: " ++
                ("open " ++ lp ++ ": is a directory")))]), rfl, ?_, ?_,
              StatusInternalServerError, Or.inr rfl, ?_⟩
            · simp [State.record, State.WriteHeader, State.Fprint, hlog3]
            · intro ev hev
              simp only [List.mem_cons, List.mem_append, List.mem_singleton, List.not_mem_nil,
                or_false] at hev
              rcases hev with h | h | h | h | h
              · subst h; simp [allowedIn]
              · exact hev3 ev h
              · subst h; simp [allowedIn]
              · subst h; simp [allowedIn]
              · subst h; simp [allowedIn]
            · simp [State.record, State.WriteHeader, State.Fprint, status_after_error, hw3]
          · simp only [hd, if_false]
            obtain ⟨ok, st2, evs2, hrun, hlog2, hstat2, -, hev2⟩ := streamLoop_total lp resp.body
              (({ st3.record (Event.create lp) with
                  fs := fun p => if p = lp then some (Node.file [])
                    else (st3.record (Event.create lp)).fs p }.WriteHeader StatusOK).SetHeader
                "Content-Type" "application/octet-stream")
            refine ⟨ok, st2, Event.get url :: (evs3 ++ [Event.create lp,
              Event.wWriteHeader StatusOK,
              Event.wSetHeader "Content-Type" "application/octet-stream"] ++ evs2), hrun, ?_, ?_,
              StatusOK, Or.inl rfl, ?_⟩
            · rw [hlog2]
              simp [State.record, State.WriteHeader, State.SetHeader, hlog3]
            · intro ev hev
              simp only [List.mem_cons, List.mem_append, List.mem_singleton, List.not_mem_nil,
                or_false] at hev
              rcases hev with h | (h | h | h | h) | h
              · subst h; simp [allowedIn]
              · exact hev3 ev h
              · subst h; simp [allowedIn]
              · subst h; simp [allowedIn]
              · subst h; simp [allowedIn]
              · rcases hev2 ev h with ⟨c, err, h⟩ | ⟨c, h⟩ | ⟨c, h⟩ | h | ⟨t, h⟩ <;> subst h <;>
                  simp [allowedIn]
            · apply hstat2
              cases h : st.w.status <;>
                simp [State.record, State.WriteHeader, State.SetHeader, ResponseWriter.WriteHeader,
                  ResponseWriter.Set, hw3, h]

/-! ## `requestHandler` -/

theorem allowedIn_writesOnlyTo (url lp : String) (ev : Event) (h : allowedIn url lp ev = true) :
    writesOnlyTo lp ev = true := by
  cases ev <;> simp_all [allowedIn, writesOnlyTo]

theorem NotFound_status (st : State) (c : Nat) (h : st.w.status = some c) :
    st.NotFound.w.status = some c := by
  simp [State.NotFound, State.SetHeader, State.WriteHeader, State.Fprint,
    ResponseWriter.WriteHeader, ResponseWriter.Write, ResponseWriter.Set, h]

theorem NotFound_log (st : State) :
    st.NotFound.log = st.log ++ [Event.wSetHeader "Content-Type" "text/plain; charset=utf-8",
      Event.wSetHeader "X-Content-Type-Options" "nosniff", Event.wWriteHeader StatusNotFound,
      Event.wFprint (utf8 "404 page not found\n")] := by
  simp [State.NotFound, State.SetHeader, State.WriteHeader, State.Fprint]

/-- Every request is answered, with status 200 or 500 and never 404, and creates
or writes no file other than the local path of the request. -/
theorem serve_total (env : Env) (fs : String → Option Node) (path : String) :
    ∃ st, serve env fs path = some st ∧
      (st.w.status = some StatusOK ∨ st.w.status = some StatusInternalServerError) ∧
      (∀ ev ∈ st.log, writesOnlyTo (filepathJoin cacheDir path) ev = true) := by
  unfold serve requestHandler
  have hf : (fresh fs).fs = fs := rfl
  cases hfs : fs (filepathJoin cacheDir path) with
  | some node =>
    cases node with
    | file c =>
      simp only [State.Stat, State.ReadFile, State.record, fresh, hfs, Option.isSome_some]
      refine ⟨_, rfl, Or.inl ?_, ?_⟩
      · simp [State.record, State.WriteHeader, State.SetHeader, State.Write,
          ResponseWriter.WriteHeader, ResponseWriter.Write, ResponseWriter.Set]
      · simp [State.record, State.WriteHeader, State.SetHeader, State.Write, writesOnlyTo]
    | dir =>
      simp only [State.Stat, State.ReadFile, State.record, fresh, hfs, Option.isSome_some]
      refine ⟨_, rfl, Or.inr ?_, ?_⟩
      · simp [State.record, State.WriteHeader, State.Fprint,
          ResponseWriter.WriteHeader, ResponseWriter.Write]
      · simp [State.record, State.WriteHeader, State.Fprint, writesOnlyTo]
  | none =>
    simp only [State.Stat, hf, hfs, Option.isSome_none]
    obtain ⟨ok1, st1, evs1, hrun1, hlog1, hev1, c1, hc1, hstat1⟩ :=
      pipeBody_total env (cubeSymbolServer ++ path) (filepathJoin cacheDir path)
        (State.record (fresh fs) (Event.stat (filepathJoin cacheDir path)))
    have hw1 : st1.w.status = some c1 := by simpa [State.record, fresh] using hstat1
    have hl1 : ∀ ev ∈ st1.log, writesOnlyTo (filepathJoin cacheDir path) ev = true := by
      intro ev hev
      rw [hlog1] at hev
      simp only [State.record, fresh, List.nil_append, List.mem_append, List.mem_cons,
        List.mem_singleton, List.not_mem_nil, or_false] at hev
      rcases hev with h | h | h
      · subst h; rfl
      · subst h; rfl
      · exact allowedIn_writesOnlyTo _ _ ev (hev1 ev h)
    rw [hrun1]
    cases ok1 with
    | true => exact ⟨st1, rfl, by rcases hc1 with h | h <;> simp [hw1, h], hl1⟩
    | false =>
      simp only []
      obtain ⟨ok2, st2, evs2, hrun2, hlog2, hev2, c2, -, hstat2⟩ :=
        pipeBody_total env (msSymbolServer ++ path) (filepathJoin cacheDir path) st1
      have hw2 : st2.w.status = some c1 := by simpa [hw1] using hstat2
      have hl2 : ∀ ev ∈ st2.log, writesOnlyTo (filepathJoin cacheDir path) ev = true := by
        intro ev hev
        rw [hlog2] at hev
        simp only [List.mem_append, List.mem_cons] at hev
        rcases hev with h | h | h
        · exact hl1 ev h
        · subst h; rfl
        · exact allowedIn_writesOnlyTo _ _ ev (hev2 ev h)
      rw [hrun2]
      cases ok2 with
      | true => exact ⟨st2, rfl, by rcases hc1 with h | h <;> simp [hw2, h], hl2⟩
      | false =>
        refine ⟨st2.NotFound, rfl, ?_, ?_⟩
        · rw [NotFound_status st2 c1 hw2]
          rcases hc1 with h | h <;> simp [h]
        · intro ev hev
          rw [NotFound_log] at hev
          simp only [List.mem_append, List.mem_cons, List.mem_singleton, List.not_mem_nil,
            or_false] at hev
          rcases hev with h | h | h | h | h
          · exact hl2 ev h
          · subst h; rfl
          · subst h; rfl
          · subst h; rfl
          · subst h; rfl

/-- No request at all is answered with status 404: every run of the handler ends
with status 200 or 500. -/
theorem handler_never_answers_404 (env : Env) (fs : String → Option Node) (path : String) :
    ∃ st, serve env fs path = some st ∧ st.w.status ≠ some StatusNotFound := by
  obtain ⟨st, hrun, hstat, -⟩ := serve_total env fs path
  refine ⟨st, hrun, ?_⟩
  rcases hstat with h | h <;> rw [h] <;> decide

/-- A read error in the middle of the first upstream's body: the handler goes on
to probe the second upstream. -/
theorem serve_after_midstream (env : Env) (fs : String → Option Node) (path : String)
    (code : Nat) (resp : Response) (e : GoError)
    (hmiss : fs (filepathJoin cacheDir path) = none)
    (hhead : (env.remote (cubeSymbolServer ++ path)).head = Except.ok code)
    (hreq : env.newRequestErr (cubeSymbolServer ++ path) = none)
    (hget : (env.remote (cubeSymbolServer ++ path)).get = Except.ok resp)
    (hfin : resp.body.fin = IoErr.other e)
    (hcreate : env.createErr (filepathJoin cacheDir path) = none)
    (hne : filepathDir (filepathJoin cacheDir path) ≠ filepathJoin cacheDir path) :
    ∃ (st : State) (pre : List Event) (rest : List Byte) (post : List Event),
      serve env fs path = some st ∧ st.w.status = some StatusOK ∧
      (clientChunks pre).flatten ++ rest = resp.body.data ∧ rest.length < socketBufferSize ∧
      st.log = pre ++ Event.readFull rest (some (IoErr.other e)) ::
        Event.wWriteHeader StatusInternalServerError ::
        Event.wFprint (utf8 ("Error reading file: " ++ e.text)) ::
        Event.head (msSymbolServer ++ path) :: post := by
  have hmissState : serve env fs path =
      match pipeBody env (cubeSymbolServer ++ path) (filepathJoin cacheDir path)
          ((fresh fs).record (Event.stat (filepathJoin cacheDir path))) with
      | none => none
      | some (true, st) => some st
      | some (false, st) =>
        match pipeBody env (msSymbolServer ++ path) (filepathJoin cacheDir path) st with
        | none => none
        | some (true, st) => some st
        | some (false, st) => some st.NotFound := by
    unfold serve requestHandler
    have hf : (fresh fs).fs = fs := rfl
    simp only [State.Stat, hf, hmiss, Option.isSome_none]
  have h1 := pipeBody_eq_loop env (cubeSymbolServer ++ path) (filepathJoin cacheDir path)
    ((fresh fs).record (Event.stat (filepathJoin cacheDir path))) code resp hhead hreq hget
    hcreate (by simp [fresh, State.record, hmiss]) hne
  obtain ⟨evs0, hlog0, hc0, -⟩ := loopStart_log (cubeSymbolServer ++ path)
    (filepathJoin cacheDir path) ((fresh fs).record (Event.stat (filepathJoin cacheDir path)))
  have hstat0 := loopStart_status (cubeSymbolServer ++ path) (filepathJoin cacheDir path)
    ((fresh fs).record (Event.stat (filepathJoin cacheDir path)))
  have hlogf : ((fresh fs).record (Event.stat (filepathJoin cacheDir path))).log =
      [Event.stat (filepathJoin cacheDir path)] := rfl
  have hstatf : ((fresh fs).record (Event.stat (filepathJoin cacheDir path))).w.status = none := rfl
  rw [hlogf] at hlog0
  rw [hstatf] at hstat0
  generalize loopStart (cubeSymbolServer ++ path) (filepathJoin cacheDir path)
    ((fresh fs).record (Event.stat (filepathJoin cacheDir path))) = S at h1 hlog0 hstat0
  obtain ⟨reads, rest, hdata, hrun, -, -, hshort⟩ :=
    streamLoop_spec (filepathJoin cacheDir path) (resp.body.data.length + 2) resp.body S le_rfl
  rw [hfin] at hrun
  simp only [] at hrun
  rw [hrun] at h1
  have hlogF := foldl_teeStep_log (filepathJoin cacheDir path) reads S
  have hstatF := foldl_teeStep_status (filepathJoin cacheDir path) reads S StatusOK
    (by simpa using hstat0)
  generalize reads.foldl (teeStep (filepathJoin cacheDir path)) S = F at h1 hlogF hstatF
  have hlog1 : (failStep F rest e).log = F.log ++ [Event.readFull rest (some (IoErr.other e)),
      Event.wWriteHeader StatusInternalServerError,
      Event.wFprint (utf8 ("Error reading file: " ++ e.text))] := by
    simp [failStep, State.record, State.WriteHeader, State.Fprint]
  have hstat1 : (failStep F rest e).w.status = some StatusOK := by
    simp [failStep, State.record, State.WriteHeader, State.Fprint, status_after_error, hstatF]
  generalize failStep F rest e = st1 at h1 hlog1 hstat1
  obtain ⟨ok2, st2, evs2, hrun2, hlog2, -, c2, -, hstat2⟩ :=
    pipeBody_total env (msSymbolServer ++ path) (filepathJoin cacheDir path) st1
  rw [hstat1] at hstat2
  rw [h1] at hmissState
  simp only [] at hmissState
  rw [hrun2] at hmissState
  have hpre : (clientChunks (Event.stat (filepathJoin cacheDir path) ::
      Event.head (cubeSymbolServer ++ path) :: Event.get (cubeSymbolServer ++ path) ::
      (evs0 ++ reads.flatMap (teeEvents (filepathJoin cacheDir path))))).flatten ++ rest =
      resp.body.data := by
    have ht := clientChunks_tee (filepathJoin cacheDir path) reads
    simp only [clientChunks, List.filterMap_append, List.filterMap_cons] at ht hc0 ⊢
    rw [hc0, ht, List.nil_append, hdata]
  have hlogAll : st2.log = (Event.stat (filepathJoin cacheDir path) ::
      Event.head (cubeSymbolServer ++ path) :: Event.get (cubeSymbolServer ++ path) ::
      (evs0 ++ reads.flatMap (teeEvents (filepathJoin cacheDir path)))) ++
      Event.readFull rest (some (IoErr.other e)) ::
        Event.wWriteHeader StatusInternalServerError ::
        Event.wFprint (utf8 ("Error reading file: " ++ e.text)) ::
        Event.head (msSymbolServer ++ path) :: evs2 := by
    rw [hlog2, hlog1, hlogF, hlog0]
    simp
  cases ok2 with
  | true =>
    exact ⟨st2, _, rest, evs2, hmissState, by simpa using hstat2, hpre, hshort ⟨e, hfin⟩, hlogAll⟩
  | false =>
    refine ⟨st2.NotFound, _, rest,
      evs2 ++ [Event.wSetHeader "Content-Type" "text/plain; charset=utf-8",
        Event.wSetHeader "X-Content-Type-Options" "nosniff", Event.wWriteHeader StatusNotFound,
        Event.wFprint (utf8 "404 page not found\n")], hmissState,
      NotFound_status st2 StatusOK (by simpa using hstat2), hpre, hshort ⟨e, hfin⟩, ?_⟩
    rw [NotFound_log, hlogAll]
    simp

/-- When the first upstream itself answers the fetch, the second request for the
path is served from the cache with the bytes of the first response. -/
theorem second_request_repeats_first_upstream (env : Env) (fs : String → Option Node)
    (path : String) (code : Nat) (resp : Response)
    (hmiss : fs (filepathJoin cacheDir path) = none)
    (hhead : (env.remote (cubeSymbolServer ++ path)).head = Except.ok code)
    (hreq : env.newRequestErr (cubeSymbolServer ++ path) = none)
    (hget : (env.remote (cubeSymbolServer ++ path)).get = Except.ok resp)
    (hfin : ∀ e, resp.body.fin ≠ IoErr.other e)
    (hcreate : env.createErr (filepathJoin cacheDir path) = none)
    (hne : filepathDir (filepathJoin cacheDir path) ≠ filepathJoin cacheDir path) :
    ∃ st1 st2, serve env fs path = some st1 ∧ serve env st1.fs path = some st2 ∧
      st1.w.body = resp.body.data ∧ st2.w.body = st1.w.body ∧
      st1.w.status = some StatusOK ∧ st2.w.status = some StatusOK := by
  have h1 := pipeBody_eq_loop env (cubeSymbolServer ++ path) (filepathJoin cacheDir path)
    ((fresh fs).record (Event.stat (filepathJoin cacheDir path))) code resp hhead hreq hget
    hcreate (by simp [fresh, State.record, hmiss]) hne
  obtain ⟨reads, hreads, hrun⟩ := streamLoop_ok (filepathJoin cacheDir path) resp.body
    (loopStart (cubeSymbolServer ++ path) (filepathJoin cacheDir path)
      ((fresh fs).record (Event.stat (filepathJoin cacheDir path)))) hfin
  rw [hrun] at h1
  have hfile := foldl_teeStep_file (filepathJoin cacheDir path) reads _ []
    (loopStart_file (cubeSymbolServer ++ path) (filepathJoin cacheDir path)
      ((fresh fs).record (Event.stat (filepathJoin cacheDir path))))
  have hbody := foldl_teeStep_body (filepathJoin cacheDir path) reads
    (loopStart (cubeSymbolServer ++ path) (filepathJoin cacheDir path)
      ((fresh fs).record (Event.stat (filepathJoin cacheDir path))))
  have hstat := foldl_teeStep_status (filepathJoin cacheDir path) reads _ StatusOK
    (loopStart_status (cubeSymbolServer ++ path) (filepathJoin cacheDir path)
      ((fresh fs).record (Event.stat (filepathJoin cacheDir path))))
  rw [loopStart_body, hreads] at hbody
  rw [hreads, List.nil_append] at hfile
  generalize reads.foldl (teeStep (filepathJoin cacheDir path))
    (loopStart (cubeSymbolServer ++ path) (filepathJoin cacheDir path)
      ((fresh fs).record (Event.stat (filepathJoin cacheDir path)))) = st1
    at h1 hfile hbody hstat
  have hfirst : serve env fs path = some st1 := by
    unfold serve requestHandler
    have hf : (fresh fs).fs = fs := rfl
    simp only [State.Stat, hf, hmiss, Option.isSome_none]
    have h1b : pipeBody env (cubeSymbolServer ++ path) (filepathJoin cacheDir path)
        (State.record (fresh fs)
          (Event.stat (filepathJoin cacheDir path))) = some (true, st1) := h1
    rw [h1b]
  have hsecond : serve env st1.fs path = some ((((((fresh st1.fs).record
      (Event.stat (filepathJoin cacheDir path))).record
      (Event.readFile (filepathJoin cacheDir path))).WriteHeader StatusOK).SetHeader
      "Content-Type" "application/octet-stream").Write resp.body.data) := by
    simp only [serve, requestHandler, State.Stat, State.ReadFile, State.record, hfile,
      Option.isSome_some, fresh]
  have hb1 : st1.w.body = resp.body.data := by simpa [fresh, State.record] using hbody
  refine ⟨st1, _, hfirst, hsecond, hb1, ?_, hstat, ?_⟩
  · rw [hb1]
    simp [fresh, State.record, State.WriteHeader, State.SetHeader, State.Write,
      ResponseWriter.WriteHeader, ResponseWriter.Write, ResponseWriter.Set]
  · simp [fresh, State.record, State.WriteHeader, State.SetHeader, State.Write,
      ResponseWriter.WriteHeader, ResponseWriter.Write, ResponseWriter.Set]

/-! ## Local paths -/

theorem splitSlash_ne_nil (cs : List Char) : splitSlash cs ≠ [] := by
  cases cs with
  | nil => simp [splitSlash]
  | cons c cs =>
    simp only [splitSlash]
    split
    · simp
    · split <;> simp

theorem splitSlash_cacheDir (p : List Char) :
    splitSlash ((cacheDir ++ "/").data ++ p) = ['.'] :: cacheName :: splitSlash p := by
  obtain ⟨e, es, h⟩ : ∃ e es, splitSlash p = e :: es := by
    cases h : splitSlash p with
    | nil => exact absurd h (splitSlash_ne_nil p)
    | cons e es => exact ⟨e, es, rfl⟩
  have : (cacheDir ++ "/").data = '.' :: '/' :: (cacheName ++ ['/']) := by decide
  rw [this]
  simp [splitSlash, h, cacheName]

theorem cleanElems_staysBelow : ∀ (es : List (List Char)) (top : List (List Char)),
    (∀ x ∈ top, x ≠ ['.', '.']) → staysBelow top.length es = true →
    ∃ top2, cleanElems false es (top ++ [cacheName]) = top2 ++ [cacheName] := by
  intro es
  induction es with
  | nil => intro top _ _; exact ⟨top, rfl⟩
  | cons e es ih =>
    intro top htop hs
    unfold staysBelow at hs
    unfold cleanElems
    by_cases h1 : e = []
    · simp only [h1, if_true] at hs ⊢
      exact ih top htop hs
    · by_cases h2 : e = ['.']
      · simp only [h1, h2, if_true, if_false] at hs ⊢
        simp only [h2] at h1
        simp only [h1, if_false] at hs ⊢
        exact ih top htop hs
      · by_cases h3 : e = ['.', '.']
        · subst h3
          simp only [h1, h2, if_true, if_false] at hs ⊢
          cases top with
          | nil => simp at hs
          | cons t ts =>
            have ht : t ≠ ['.', '.'] := htop t (List.mem_cons_self _ _)
            simp only [List.length_cons] at hs
            simp only [List.cons_append, ht, if_false]
            exact ih ts (fun x hx => htop x (List.mem_cons_of_mem _ hx)) hs
        · simp only [h1, h2, h3, if_false] at hs ⊢
          have := ih (e :: top) (by
            intro x hx
            rcases List.mem_cons.mp hx with rfl | hx
            · exact h3
            · exact htop x hx) (by simpa using hs)
          simpa using this

theorem joinSlash_cache (l : List (List Char)) :
    joinSlash (cacheName :: l) = cacheName ∨
      ∃ r, joinSlash (cacheName :: l) = cacheName ++ '/' :: r := by
  cases l with
  | nil => left; rfl
  | cons x xs => right; exact ⟨joinSlash (x :: xs), rfl⟩

theorem filepathJoin_cacheDir_chars (path : String)
    (h : staysBelow 0 (splitSlash path.data) = true) :
    ∃ l, filepathJoin cacheDir path = String.mk (joinSlash (cacheName :: l)) := by
  obtain ⟨top2, htop⟩ := cleanElems_staysBelow (splitSlash path.data) [] (by simp) h
  refine ⟨top2.reverse, ?_⟩
  have hdata : (cacheDir ++ "/" ++ path).data = (cacheDir ++ "/").data ++ path.data := by
    simp [String.data_append]
  have hpre : (cacheDir ++ "/").data = '.' :: '/' :: (cacheName ++ ['/']) := by decide
  have hne : (cacheDir ++ "/").data ++ path.data ≠ [] := by
    rw [hpre]; simp
  have hhead : ((cacheDir ++ "/").data ++ path.data).head? = some '.' := by
    rw [hpre]; rfl
  have hrooted : (some '.' = some '/') = False := by decide
  have hclean : cleanElems false (['.'] :: cacheName :: splitSlash path.data) [] =
      cleanElems false (splitSlash path.data) [cacheName] := by
    have h1 : (cacheName = []) = False := by decide
    have h2 : (cacheName = ['.']) = False := by decide
    have h3 : (cacheName = ['.', '.']) = False := by decide
    simp only [cleanElems, h1, h2, h3, if_true, if_false]
    simp
  have hbody : joinSlash (cacheName :: top2.reverse) ≠ [] := by
    rcases joinSlash_cache top2.reverse with h | ⟨r, h⟩ <;> rw [h] <;> simp [cacheName]
  simp only [List.nil_append] at htop
  simp only [filepathJoin, filepathClean, hdata, cleanChars, hne, if_false, hhead, hrooted,
    decide_False, splitSlash_cacheDir, hclean, htop, List.reverse_append, List.reverse_cons,
    List.reverse_nil, List.nil_append, List.singleton_append, hbody]

/-! ## Fallback to the second upstream (C1) -/

/-- C1 at a failing input: empty cache, first upstream unreachable, second
upstream has `/a.pdb` with content `[1, 2, 3]`.  The first upstream is probed and
never fetched and the cache file holds the content, but the response has status
500 and its body is the probe diagnostic followed by the content. -/
theorem fallback_response_is_polluted :
    ∃ st, serve (world "/a.pdb" unreachable (serving [1, 2, 3])) noFiles "/a.pdb" = some st ∧
      st.w.status = some 500 ∧
      st.w.body =
        utf8 "Error getting remote resource information: dial tcp: connection refused" ++
          [1, 2, 3] ∧
      st.w.body ≠ [1, 2, 3] ∧
      st.fs "cache/a.pdb" = some (Node.file [1, 2, 3]) ∧
      Event.head cubeUrl ∈ st.log ∧ Event.get cubeUrl ∉ st.log := by
  refine ⟨_, rfl, ?_, ?_, ?_, ?_, ?_, ?_⟩ <;> decide

/-- The other way the first upstream can lack the path: it answers the probe (and
the GET) with 404.  The probe status is dropped, so the 404 page is fetched,
served with status 200 and cached, and the second upstream is never asked. -/
theorem probe_not_found_is_fetched :
    ∃ st, serve (world "/a.pdb" (answering 404 404 [110, 111]) (serving [1, 2, 3])) noFiles
        "/a.pdb" = some st ∧
      st.w.status = some 200 ∧ st.w.body = [110, 111] ∧
      st.fs "cache/a.pdb" = some (Node.file [110, 111]) ∧
      Event.get cubeUrl ∈ st.log ∧ Event.head msUrl ∉ st.log := by
  refine ⟨_, rfl, ?_, ?_, ?_, ?_, ?_⟩ <;> decide

/-! ## Exhausted fallback (C2) -/

/-- C2 at a failing input: empty cache, both upstreams unreachable.  No cache file
is created and `http.NotFound` is called, but its `WriteHeader(404)` comes after
the `WriteHeader(500)` of the first failed probe: the response status is 500. -/
theorem exhausted_fallback_answers_500 :
    ∃ st, serve (world "/a.pdb" unreachable unreachable) noFiles "/a.pdb" = some st ∧
      st.w.status = some 500 ∧ st.w.status ≠ some StatusNotFound ∧
      st.log = [Event.stat "cache/a.pdb",
        Event.head cubeUrl, Event.wWriteHeader 500,
        Event.wFprint
          (utf8 "Error getting remote resource information: dial tcp: connection refused"),
        Event.head msUrl, Event.wWriteHeader 500,
        Event.wFprint
          (utf8 "Error getting remote resource information: dial tcp: connection refused"),
        Event.wSetHeader "Content-Type" "text/plain; charset=utf-8",
        Event.wSetHeader "X-Content-Type-Options" "nosniff",
        Event.wWriteHeader 404, Event.wFprint (utf8 "404 page not found\n")] ∧
      st.fs "cache/a.pdb" = none := by
  refine ⟨_, rfl, ?_, ?_, ?_, ?_⟩ <;> decide

/-! ## Cache hit (C3) -/

/-- C3: when the cache file of the request path exists and is readable with
content `content`, the handler answers 200 with exactly that body, makes only
the two local calls (`os.Stat`, `ioutil.ReadFile`) and so contacts no upstream,
and leaves the file system as it was. -/
theorem cache_hit_served_locally (env : Env) (fs : String → Option Node) (path : String)
    (content : List Byte)
    (hhit : fs (filepathJoin cacheDir path) = some (Node.file content)) :
    ∃ st, serve env fs path = some st ∧
      st.w.status = some StatusOK ∧ st.w.body = content ∧
      st.log = [Event.stat (filepathJoin cacheDir path), Event.readFile (filepathJoin cacheDir path),
        Event.wWriteHeader StatusOK, Event.wSetHeader "Content-Type" "application/octet-stream",
        Event.wWrite content] ∧
      (∀ url, Event.head url ∉ st.log ∧ Event.get url ∉ st.log) ∧
      st.fs = fs := by
  have hrun : serve env fs path = some ((((((fresh fs).record
      (Event.stat (filepathJoin cacheDir path))).record
      (Event.readFile (filepathJoin cacheDir path))).WriteHeader StatusOK).SetHeader
      "Content-Type" "application/octet-stream").Write content) := by
    simp only [serve, requestHandler, State.Stat, State.ReadFile, State.record, hhit,
      Option.isSome_some, fresh]
  refine ⟨_, hrun, ?_, ?_, ?_, ?_, ?_⟩
  · simp [fresh, State.record, State.WriteHeader, State.SetHeader, State.Write,
      ResponseWriter.WriteHeader, ResponseWriter.Write, ResponseWriter.Set]
  · simp [fresh, State.record, State.WriteHeader, State.SetHeader, State.Write,
      ResponseWriter.WriteHeader, ResponseWriter.Write, ResponseWriter.Set]
  · simp [fresh, State.record, State.WriteHeader, State.SetHeader, State.Write]
  · intro url
    simp [fresh, State.record, State.WriteHeader, State.SetHeader, State.Write]
  · simp [fresh, State.record, State.WriteHeader, State.SetHeader, State.Write]

/-- The cache holds `/a.pdb` with content `[1, 2, 3]` and no upstream can be
reached: the request is served from the cache. -/
theorem cache_hit_served_locally_witness :
    oneFile [1, 2, 3] (filepathJoin cacheDir "/a.pdb") = some (Node.file [1, 2, 3]) ∧
    ∃ st, serve (world "/a.pdb" unreachable unreachable) (oneFile [1, 2, 3]) "/a.pdb" = some st ∧
      st.w.status = some StatusOK ∧ st.w.body = [1, 2, 3] ∧
      st.log = [Event.stat (filepathJoin cacheDir "/a.pdb"),
        Event.readFile (filepathJoin cacheDir "/a.pdb"),
        Event.wWriteHeader StatusOK, Event.wSetHeader "Content-Type" "application/octet-stream",
        Event.wWrite [1, 2, 3]] ∧
      (∀ url, Event.head url ∉ st.log ∧ Event.get url ∉ st.log) ∧
      st.fs = oneFile [1, 2, 3] :=
  ⟨by decide, cache_hit_served_locally (world "/a.pdb" unreachable unreachable) (oneFile [1, 2, 3])
    "/a.pdb" [1, 2, 3] (by decide)⟩

/-! ## Chunked transfer (C4) -/

/-- The rounds of the loop at the chunk boundary: a body one byte short of a
chunk is teed in one round that ends with the truncated-end error, a body of
exactly one chunk in one full round and one empty round that ends with
end-of-stream, a body one byte longer in one full round and one round of one
byte. -/
theorem chunk_boundary_rounds (lp : String) (B : List Byte) (st : State) :
    (B.length = 16383 →
      streamLoop lp (B.length + 2) none ⟨B, IoErr.EOF⟩ st =
        some (true, teeStep lp st (B, some IoErr.ErrUnexpectedEOF))) ∧
    (B.length = 16384 →
      streamLoop lp (B.length + 2) none ⟨B, IoErr.EOF⟩ st =
        some (true, teeStep lp (teeStep lp st (B, none)) ([], some IoErr.EOF))) ∧
    (B.length = 16385 →
      streamLoop lp (B.length + 2) none ⟨B, IoErr.EOF⟩ st =
        some (true, teeStep lp (teeStep lp st (B.take 16384, none))
          (B.drop 16384, some IoErr.ErrUnexpectedEOF))) := by
  have hsize : socketBufferSize = 16384 := by decide
  refine ⟨fun h => ?_, fun h => ?_, fun h => ?_⟩
  · obtain ⟨k, hk⟩ : ∃ k, B.length + 2 = k + 3 := ⟨B.length - 1, by omega⟩
    have hne : B ≠ [] := by intro h0; rw [h0] at h; simp at h
    have hlt : ¬ 16384 ≤ B.length := by omega
    rw [hk]
    simp [streamLoop, readFull, hsize, hlt, hne, teeStep]
  · obtain ⟨k, hk⟩ : ∃ k, B.length + 2 = k + 3 := ⟨B.length - 1, by omega⟩
    have htake : B.take 16384 = B := List.take_of_length_le (by omega)
    have hdrop : B.drop 16384 = [] := List.drop_of_length_le (by omega)
    have hle : 16384 ≤ B.length := by omega
    rw [hk]
    simp [streamLoop, readFull, hsize, hle, htake, hdrop, teeStep]
  · obtain ⟨k, hk⟩ : ∃ k, B.length + 2 = k + 3 := ⟨B.length - 1, by omega⟩
    have hne : B.drop 16384 ≠ [] := by
      intro h0
      have := congrArg List.length h0
      simp [h] at this
    have hle : 16384 ≤ B.length := by omega
    have hlt : ¬ 16384 ≤ B.length - 16384 := by omega
    rw [hk]
    simp [streamLoop, readFull, hsize, hle, hlt, hne, teeStep]

/-- C4: when the probe, the fetch and the creation of the cache file succeed
and the body `B` ends with a clean end of stream, `pipeBody` returns true, the
chunks it writes to the client concatenate to `B`, the chunks it writes to the
file concatenate to `B`, the response body grows by exactly `B`, and the cache
file holds exactly `B`; this for every length of `B`. -/
theorem pipeBody_reproduces_body (env : Env) (requestUrl localPath : String) (st : State)
    (code : Nat) (resp : Response)
    (hhead : (env.remote requestUrl).head = Except.ok code)
    (hreq : env.newRequestErr requestUrl = none)
    (hget : (env.remote requestUrl).get = Except.ok resp)
    (hend : resp.body.fin = IoErr.EOF)
    (hcreate : env.createErr localPath = none)
    (hdir : st.fs localPath ≠ some Node.dir)
    (hne : filepathDir localPath ≠ localPath) :
    ∃ (st2 : State) (evs : List Event),
      pipeBody env requestUrl localPath st = some (true, st2) ∧
      st2.log = st.log ++ evs ∧
      (clientChunks evs).flatten = resp.body.data ∧
      (fileChunks localPath evs).flatten = resp.body.data ∧
      st2.w.body = st.w.body ++ resp.body.data ∧
      st2.fs localPath = some (Node.file resp.body.data) := by
  have hfin : ∀ e, resp.body.fin ≠ IoErr.other e := by
    intro e h; rw [hend] at h; exact IoErr.noConfusion h
  obtain ⟨reads, hreads, hrun⟩ :=
    streamLoop_ok localPath resp.body (loopStart requestUrl localPath st) hfin
  have hstart : ∃ evs0, (loopStart requestUrl localPath st).log = st.log ++ evs0 ∧
      clientChunks evs0 = [] ∧ fileChunks localPath evs0 = [] := by
    by_cases hs : (st.fs (filepathDir localPath)).isSome
    · exact ⟨[Event.head requestUrl, Event.get requestUrl, Event.stat (filepathDir localPath),
        Event.create localPath, Event.wWriteHeader StatusOK,
        Event.wSetHeader "Content-Type" "application/octet-stream"],
        by simp [loopStart, State.Stat, State.record, State.WriteHeader, State.SetHeader, hs],
        rfl, rfl⟩
    · exact ⟨[Event.head requestUrl, Event.get requestUrl, Event.stat (filepathDir localPath),
        Event.mkdirAll (filepathDir localPath),
        Event.create localPath, Event.wWriteHeader StatusOK,
        Event.wSetHeader "Content-Type" "application/octet-stream"],
        by simp [loopStart, State.Stat, State.record, State.WriteHeader, State.SetHeader,
          State.MkdirAll, hs],
        rfl, rfl⟩
  obtain ⟨evs0, hlog0, hc0, hf0⟩ := hstart
  have hfile0 : (loopStart requestUrl localPath st).fs localPath = some (Node.file []) := by
    simp [loopStart, State.WriteHeader, State.SetHeader]
  have hbody0 : (loopStart requestUrl localPath st).w.body = st.w.body := by
    by_cases hs : (st.fs (filepathDir localPath)).isSome <;>
      cases hst : st.w.status <;>
      simp [loopStart, State.Stat, State.record, State.WriteHeader, State.SetHeader,
        State.MkdirAll, ResponseWriter.WriteHeader, ResponseWriter.Set, hs, hst]
  refine ⟨reads.foldl (teeStep localPath) (loopStart requestUrl localPath st),
    evs0 ++ reads.flatMap (teeEvents localPath), ?_, ?_, ?_, ?_, ?_, ?_⟩
  · rw [pipeBody_eq_loop env requestUrl localPath st code resp hhead hreq hget hcreate hdir hne]
    exact hrun
  · rw [foldl_teeStep_log, hlog0, List.append_assoc]
  · have := clientChunks_tee localPath reads
    simp only [clientChunks, List.filterMap_append] at this hc0 ⊢
    rw [hc0, this, List.nil_append, hreads]
  · have := fileChunks_tee localPath reads
    simp only [fileChunks, List.filterMap_append] at this hf0 ⊢
    rw [hf0, this, List.nil_append, hreads]
  · rw [foldl_teeStep_body, hbody0, hreads]
  · rw [foldl_teeStep_file localPath reads _ [] hfile0, hreads, List.nil_append]

/-- A body of 16385 bytes, one more than a chunk, from the second upstream into an
empty cache. -/
theorem pipeBody_reproduces_body_witness :
    ((world "/a.pdb" unreachable (serving (bodyOf 16385))).remote msUrl).head = Except.ok 200 ∧
    (world "/a.pdb" unreachable (serving (bodyOf 16385))).newRequestErr msUrl = none ∧
    ((world "/a.pdb" unreachable (serving (bodyOf 16385))).remote msUrl).get =
      Except.ok ⟨200, ⟨bodyOf 16385, IoErr.EOF⟩⟩ ∧
    (world "/a.pdb" unreachable (serving (bodyOf 16385))).createErr "cache/a.pdb" = none ∧
    (fresh noFiles).fs "cache/a.pdb" ≠ some Node.dir ∧
    filepathDir "cache/a.pdb" ≠ "cache/a.pdb" ∧
    ∃ (st2 : State) (evs : List Event),
      pipeBody (world "/a.pdb" unreachable (serving (bodyOf 16385))) msUrl "cache/a.pdb"
        (fresh noFiles) = some (true, st2) ∧
      st2.log = (fresh noFiles).log ++ evs ∧
      (clientChunks evs).flatten = bodyOf 16385 ∧
      (fileChunks "cache/a.pdb" evs).flatten = bodyOf 16385 ∧
      st2.w.body = (fresh noFiles).w.body ++ bodyOf 16385 ∧
      st2.fs "cache/a.pdb" = some (Node.file (bodyOf 16385)) :=
  ⟨rfl, rfl, rfl, rfl, by decide, by decide,
    pipeBody_reproduces_body (world "/a.pdb" unreachable (serving (bodyOf 16385))) msUrl
      "cache/a.pdb" (fresh noFiles) 200 ⟨200, ⟨bodyOf 16385, IoErr.EOF⟩⟩ rfl rfl rfl rfl rfl
      (by decide) (by decide)⟩

/-! ## Repeated request (C5) -/

/-- C5 at a failing input: empty cache, first upstream unreachable, second
upstream has `/a.pdb` with content `[1, 2, 3]`.  The second request is served
from the cache with body `[1, 2, 3]`; the first response carried the probe
diagnostic in front of these bytes. -/
theorem second_response_differs :
    ∃ st1 st2,
      serve (world "/a.pdb" unreachable (serving [1, 2, 3])) noFiles "/a.pdb" = some st1 ∧
      serve (world "/a.pdb" unreachable (serving [1, 2, 3])) st1.fs "/a.pdb" = some st2 ∧
      st2.w.status = some 200 ∧ st2.w.body = [1, 2, 3] ∧
      st1.w.body =
        utf8 "Error getting remote resource information: dial tcp: connection refused" ++
          [1, 2, 3] ∧
      st1.w.body ≠ st2.w.body := by
  refine ⟨_, _, rfl, rfl, ?_, ?_, ?_, ?_⟩ <;> decide

/-! ## Path isolation (C6) -/

/-- C6, as stated, fails: for the request path `/../../etc/passwd` the local path
is `../etc/passwd`, outside the cache root, and a request that the first upstream
answers creates and fills that file. -/
theorem traversal_leaves_cache_root :
    filepathJoin cacheDir "/../../etc/passwd" = "../etc/passwd" ∧
    insideDir (filepathClean cacheDir) (filepathJoin cacheDir "/../../etc/passwd") = false ∧
    ∃ st, serve (world "/../../etc/passwd" (serving [1, 2, 3]) unreachable) noFiles
        "/../../etc/passwd" = some st ∧
      Event.create "../etc/passwd" ∈ st.log ∧
      st.fs "../etc/passwd" = some (Node.file [1, 2, 3]) := by
  refine ⟨by decide, by decide, _, rfl, ?_, ?_⟩ <;> decide

/-- C6, amended: when no `..` element of the request path climbs above the
request root (every `..` has an ordinary element before it to cancel; in
particular when the path has no `..` element), the local path
`filepath.Join(cacheDir, path)` is the cache root or lies below it, and every
request for such a path, in every world, creates and writes files only there. -/
theorem cache_writes_stay_inside (path : String)
    (hpath : staysBelow 0 (splitSlash path.data) = true) :
    insideDir (filepathClean cacheDir) (filepathJoin cacheDir path) = true ∧
    ∀ (env : Env) (fs : String → Option Node), ∃ st, serve env fs path = some st ∧
      ∀ p, (Event.create p ∈ st.log ∨ ∃ c, Event.fileWrite p c ∈ st.log) →
        insideDir (filepathClean cacheDir) p = true := by
  have hin : insideDir (filepathClean cacheDir) (filepathJoin cacheDir path) = true := by
    obtain ⟨l, hl⟩ := filepathJoin_cacheDir_chars path hpath
    have hroot : filepathClean cacheDir = String.mk cacheName := by decide
    rw [hl, hroot]
    rcases joinSlash_cache l with h | ⟨r, h⟩
    · rw [h]; simp [insideDir]
    · rw [h]; simp [insideDir, cacheName]
  refine ⟨hin, fun env fs => ?_⟩
  obtain ⟨st, hrun, -, hlog⟩ := serve_total env fs path
  refine ⟨st, hrun, fun p hp => ?_⟩
  rcases hp with hp | ⟨c, hp⟩
  · have := hlog _ hp
    simp only [writesOnlyTo, decide_eq_true_eq] at this
    rw [this]; exact hin
  · have := hlog _ hp
    simp only [writesOnlyTo, decide_eq_true_eq] at this
    rw [this]; exact hin

/-- The request path `/symbols/../a.pdb`, whose `..` is cancelled by `symbols`. -/
theorem cache_writes_stay_inside_witness :
    staysBelow 0 (splitSlash "/symbols/../a.pdb".data) = true ∧
    (insideDir (filepathClean cacheDir) (filepathJoin cacheDir "/symbols/../a.pdb") = true ∧
    ∀ (env : Env) (fs : String → Option Node), ∃ st,
      serve env fs "/symbols/../a.pdb" = some st ∧
      ∀ p, (Event.create p ∈ st.log ∨ ∃ c, Event.fileWrite p c ∈ st.log) →
        insideDir (filepathClean cacheDir) p = true) :=
  ⟨by decide, cache_writes_stay_inside "/symbols/../a.pdb" (by decide)⟩

/-! ## Failed probe (C7) -/

/-- C7 at a failing input: the probe of the first upstream fails.  `pipeBody`
returns false after writing status 500 and a diagnostic to the client, and the
handler then probes the second upstream with that response already begun. -/
theorem failed_probe_is_reported :
    (∃ st, pipeBody (world "/a.pdb" unreachable (serving [1, 2, 3])) cubeUrl "cache/a.pdb"
        (fresh noFiles) = some (false, st) ∧
      st.w.status = some 500 ∧
      st.w.body =
        utf8 "Error getting remote resource information: dial tcp: connection refused" ∧
      st.log = [Event.head cubeUrl, Event.wWriteHeader 500,
        Event.wFprint
          (utf8 "Error getting remote resource information: dial tcp: connection refused")]) ∧
    (∃ st, serve (world "/a.pdb" unreachable (serving [1, 2, 3])) noFiles "/a.pdb" = some st ∧
      st.log.take 5 = [Event.stat "cache/a.pdb", Event.head cubeUrl, Event.wWriteHeader 500,
        Event.wFprint
          (utf8 "Error getting remote resource information: dial tcp: connection refused"),
        Event.head msUrl]) := by
  refine ⟨⟨_, rfl, ?_, ?_, ?_⟩, ⟨_, rfl, ?_⟩⟩ <;> decide

/-! ## Failure in the middle of a body (C8) -/

/-- C8 at its failing inputs: empty cache, the first upstream answers the probe
and the GET and then its body breaks off with a connection error after `sent`
(any bytes, so also after whole chunks have been streamed), the second upstream
is anything.  The handler answers, the response status is the 200 committed
before streaming, and right after the failed read and its diagnostic the second
upstream is probed. -/
theorem midstream_failure_probes_next_upstream (sent : List Byte) (ms : Upstream) :
    ∃ (st : State) (pre : List Event) (rest : List Byte) (post : List Event),
      serve (world "/a.pdb" (breaking sent) ms) noFiles "/a.pdb" = some st ∧
      st.w.status = some StatusOK ∧
      (clientChunks pre).flatten ++ rest = sent ∧ rest.length < socketBufferSize ∧
      st.log = pre ++ Event.readFull rest
          (some (IoErr.other ⟨"read tcp: connection reset by peer"⟩)) ::
        Event.wWriteHeader StatusInternalServerError ::
        Event.wFprint (utf8 ("Error reading file: " ++ "read tcp: connection reset by peer")) ::
        Event.head msUrl :: post :=
  serve_after_midstream (world "/a.pdb" (breaking sent) ms) noFiles "/a.pdb" 200
    ⟨200, ⟨sent, IoErr.other ⟨"read tcp: connection reset by peer"⟩⟩⟩
    ⟨"read tcp: connection reset by peer"⟩ rfl rfl rfl rfl rfl rfl (by decide)

/-- The same run on a short body, evaluated in full: the second upstream is
probed and fetched and its content is appended to the response and replaces the
cache file. -/
theorem midstream_failure_small_run :
    ∃ st, serve (world "/a.pdb" (breaking [1, 2]) (serving [7, 8, 9])) noFiles "/a.pdb" =
        some st ∧
      st.w.status = some 200 ∧
      st.w.body = utf8 "Error reading file: read tcp: connection reset by peer" ++ [7, 8, 9] ∧
      Event.head msUrl ∈ st.log ∧ Event.get msUrl ∈ st.log ∧
      st.fs "cache/a.pdb" = some (Node.file [7, 8, 9]) := by
  refine ⟨_, rfl, ?_, ?_, ?_, ?_, ?_⟩ <;> decide

/-! ## Order of the tee (C9) -/

theorem bodyOf_length (n : Nat) : (bodyOf n).length = n := by
  unfold bodyOf
  exact List.length_replicate n 7

theorem bodyOf_take (m k : Nat) : (bodyOf (m + k)).take m = bodyOf m := by
  unfold bodyOf
  rw [List.take_replicate, Nat.min_eq_left (Nat.le_add_right m k)]

theorem bodyOf_drop (m k : Nat) : (bodyOf (m + k)).drop m = bodyOf k := by
  unfold bodyOf
  rw [List.drop_replicate, Nat.add_sub_cancel_left]

/-- One full round and then a read error: the body has at least one chunk and
less than two, and its reader ends with an error other than end-of-stream. -/
theorem streamLoop_round_then_error (lp : String) (B : List Byte) (e : GoError) (st : State)
    (hle : 16384 ≤ B.length) (hlt : B.length < 32768) :
    streamLoop lp (B.length + 2) none ⟨B, IoErr.other e⟩ st =
      some (false, failStep (teeStep lp st (B.take 16384, none)) (B.drop 16384) e) := by
  have hsize : socketBufferSize = 16384 := by decide
  obtain ⟨k, hk⟩ : ∃ k, B.length + 2 = k + 3 := ⟨B.length - 1, by omega⟩
  have hshort : ¬ 16384 ≤ B.length - 16384 := by omega
  rw [hk]
  simp [streamLoop, readFull, hsize, hle, hshort, teeStep, failStep]

/-- C9, as stated, fails in a run that ends in a read error.  The body is 16386
bytes and then the connection breaks: the first chunk of 16384 bytes goes to the
file and to the client, the two bytes of the failed read go to neither, and the
diagnostic goes to the client only.  The response body (16384 bytes and the
diagnostic) is not an initial segment of the cache file (16384 bytes). -/
theorem read_error_breaks_tee :
    ∃ st2, streamLoop "cache/a.pdb" (16386 + 2) none
        ⟨bodyOf 16386, IoErr.other ⟨"read tcp: connection reset by peer"⟩⟩
        (fresh (oneFile [])) = some (false, st2) ∧
      st2.log = [Event.readFull (bodyOf 16384) none,
        Event.fileWrite "cache/a.pdb" (bodyOf 16384), Event.wWrite (bodyOf 16384),
        Event.readFull (bodyOf 2) (some (IoErr.other ⟨"read tcp: connection reset by peer"⟩)),
        Event.wWriteHeader StatusInternalServerError,
        Event.wFprint (utf8 "Error reading file: read tcp: connection reset by peer")] ∧
      st2.fs "cache/a.pdb" = some (Node.file (bodyOf 16384)) ∧
      st2.w.body =
        bodyOf 16384 ++ utf8 "Error reading file: read tcp: connection reset by peer" ∧
      ¬ (st2.w.body <+: bodyOf 16384) ∧
      ¬ (clientBytes st2.log <+: fileBytes "cache/a.pdb" st2.log) ∧
      readChunks st2.log = [bodyOf 16384, bodyOf 2] ∧
      fileChunks "cache/a.pdb" st2.log = [bodyOf 16384] ∧
      clientChunks st2.log = [bodyOf 16384] := by
  have hlen : (bodyOf 16386).length = 16386 := bodyOf_length 16386
  have htake : (bodyOf 16386).take 16384 = bodyOf 16384 := bodyOf_take 16384 2
  have hdrop : (bodyOf 16386).drop 16384 = bodyOf 2 := bodyOf_drop 16384 2
  have hrun := streamLoop_round_then_error "cache/a.pdb" (bodyOf 16386)
    ⟨"read tcp: connection reset by peer"⟩ (fresh (oneFile [])) (by omega) (by omega)
  rw [hlen, htake, hdrop] at hrun
  have hdiag : 0 < (utf8 "Error reading file: read tcp: connection reset by peer").length := by
    decide
  have hnot : ¬ (bodyOf 16384 ++ utf8 "Error reading file: read tcp: connection reset by peer"
      <+: bodyOf 16384) := by
    intro h
    have := h.length_le
    simp only [List.length_append] at this
    omega
  refine ⟨_, hrun, ?_, ?_, ?_, ?_, ?_, ?_, ?_, ?_⟩
  · simp [failStep, teeStep, fresh, State.record, State.FileWrite, State.Write,
      State.WriteHeader, State.Fprint]
  · simp [failStep, teeStep, fresh, oneFile, State.record, State.FileWrite, State.Write,
      State.WriteHeader, State.Fprint]
  · simp [failStep, teeStep, fresh, State.record, State.FileWrite, State.Write,
      State.WriteHeader, State.Fprint, ResponseWriter.Write, ResponseWriter.WriteHeader]
  · simpa [failStep, teeStep, fresh, State.record, State.FileWrite, State.Write,
      State.WriteHeader, State.Fprint, ResponseWriter.Write, ResponseWriter.WriteHeader]
      using hnot
  · simpa [failStep, teeStep, fresh, State.record, State.FileWrite, State.Write,
      State.WriteHeader, State.Fprint, clientBytes, fileBytes, fileChunks] using hnot
  · simp [failStep, teeStep, fresh, State.record, State.FileWrite, State.Write,
      State.WriteHeader, State.Fprint, readChunks]
  · simp [failStep, teeStep, fresh, State.record, State.FileWrite, State.Write,
      State.WriteHeader, State.Fprint, fileChunks]
  · simp [failStep, teeStep, fresh, State.record, State.FileWrite, State.Write,
      State.WriteHeader, State.Fprint, clientChunks]

/-- C9, amended: every run of the streaming loop of `pipeBody` is a sequence of
rounds, each one `io.ReadFull` returning a chunk with nil, EOF or
ErrUnexpectedEOF, then `fd.Write` of that chunk, then `w.Write` of that chunk,
before the next read; the reads, the file and the client see the same chunks in
the same order over these rounds; and at every point of the rounds all bytes
sent to the client are an initial segment of the bytes written to the file.  A
run whose reader does not fail consists of the rounds alone.  A run whose reader
fails with another error goes on, after the rounds, with the failed read, whose
bytes reach neither sink, and the diagnostic, which reaches the client only. -/
theorem streamLoop_tees_in_order (localPath : String) (s : Stream) (st : State) :
    ∃ (ok : Bool) (st2 : State) (reads : List (List Byte × Option IoErr)) (tail : List Event),
      streamLoop localPath (s.data.length + 2) none s st = some (ok, st2) ∧
      st2.log = st.log ++ (reads.flatMap (teeEvents localPath) ++ tail) ∧
      (∀ r ∈ reads, ∀ e, r.2 ≠ some (IoErr.other e)) ∧
      readChunks (reads.flatMap (teeEvents localPath)) = reads.map Prod.fst ∧
      fileChunks localPath (reads.flatMap (teeEvents localPath)) = reads.map Prod.fst ∧
      clientChunks (reads.flatMap (teeEvents localPath)) = reads.map Prod.fst ∧
      (∀ k, clientBytes ((reads.flatMap (teeEvents localPath)).take k) <+:
        fileBytes localPath ((reads.flatMap (teeEvents localPath)).take k)) ∧
      ((ok = true ∧ (∀ e, s.fin ≠ IoErr.other e) ∧ tail = []) ∨
        (ok = false ∧ ∃ rest e, s.fin = IoErr.other e ∧
          tail = [Event.readFull rest (some (IoErr.other e)),
            Event.wWriteHeader StatusInternalServerError,
            Event.wFprint (utf8 ("Error reading file: " ++ e.text))])) := by
  obtain ⟨reads, rest, -, hrun, -, hgood, -⟩ :=
    streamLoop_spec localPath (s.data.length + 2) s st le_rfl
  cases hfin : s.fin with
  | other e =>
    rw [hfin] at hrun
    refine ⟨false, _, reads, [Event.readFull rest (some (IoErr.other e)),
        Event.wWriteHeader StatusInternalServerError,
        Event.wFprint (utf8 ("Error reading file: " ++ e.text))], hrun, ?_, hgood,
      readChunks_tee localPath reads, fileChunks_tee localPath reads,
      clientChunks_tee localPath reads, tee_client_behind_file localPath reads,
      Or.inr ⟨rfl, rest, e, rfl, rfl⟩⟩
    simp [failStep, State.record, State.WriteHeader, State.Fprint, foldl_teeStep_log]
  | EOF =>
    rw [hfin] at hrun
    refine ⟨true, _, reads, [], hrun, ?_, hgood,
      readChunks_tee localPath reads, fileChunks_tee localPath reads,
      clientChunks_tee localPath reads, tee_client_behind_file localPath reads,
      Or.inl ⟨rfl, fun e h => IoErr.noConfusion h, rfl⟩⟩
    simp [foldl_teeStep_log]
  | ErrUnexpectedEOF =>
    rw [hfin] at hrun
    refine ⟨true, _, reads, [], hrun, ?_, hgood,
      readChunks_tee localPath reads, fileChunks_tee localPath reads,
      clientChunks_tee localPath reads, tee_client_behind_file localPath reads,
      Or.inl ⟨rfl, fun e h => IoErr.noConfusion h, rfl⟩⟩
    simp [foldl_teeStep_log]

/-! ## Probe status (C10) -/

/-- C10: two runs of `pipeBody` on the same arguments and state, in worlds that
agree on everything except the status code the probe answers (neither probe has a
transport error), give the same result: the same boolean and the same final state,
hence the same fetch, the same bytes in the cache file and the same response. -/
theorem pipeBody_ignores_probe_status (env1 env2 : Env) (requestUrl localPath : String)
    (st : State) (code1 code2 : Nat)
    (h1 : (env1.remote requestUrl).head = Except.ok code1)
    (h2 : (env2.remote requestUrl).head = Except.ok code2)
    (hget : (env1.remote requestUrl).get = (env2.remote requestUrl).get)
    (hreq : env1.newRequestErr requestUrl = env2.newRequestErr requestUrl)
    (hcreate : env1.createErr localPath = env2.createErr localPath) :
    pipeBody env1 requestUrl localPath st = pipeBody env2 requestUrl localPath st := by
  unfold pipeBody requestHead requestBody State.Create
  simp only [h1, h2, hget, hreq, hcreate]

/-- The same upstream once answering the probe with 200 and once with 404. -/
theorem pipeBody_ignores_probe_status_witness :
    ((world "/a.pdb" (answering 200 200 [1, 2, 3]) unreachable).remote cubeUrl).head =
      Except.ok 200 ∧
    ((world "/a.pdb" (answering 404 200 [1, 2, 3]) unreachable).remote cubeUrl).head =
      Except.ok 404 ∧
    ((world "/a.pdb" (answering 200 200 [1, 2, 3]) unreachable).remote cubeUrl).get =
      ((world "/a.pdb" (answering 404 200 [1, 2, 3]) unreachable).remote cubeUrl).get ∧
    (world "/a.pdb" (answering 200 200 [1, 2, 3]) unreachable).newRequestErr cubeUrl =
      (world "/a.pdb" (answering 404 200 [1, 2, 3]) unreachable).newRequestErr cubeUrl ∧
    (world "/a.pdb" (answering 200 200 [1, 2, 3]) unreachable).createErr "cache/a.pdb" =
      (world "/a.pdb" (answering 404 200 [1, 2, 3]) unreachable).createErr "cache/a.pdb" ∧
    pipeBody (world "/a.pdb" (answering 200 200 [1, 2, 3]) unreachable) cubeUrl "cache/a.pdb"
        (fresh noFiles) =
      pipeBody (world "/a.pdb" (answering 404 200 [1, 2, 3]) unreachable) cubeUrl "cache/a.pdb"
        (fresh noFiles) :=
  ⟨rfl, rfl, rfl, rfl, rfl,
    pipeBody_ignores_probe_status (world "/a.pdb" (answering 200 200 [1, 2, 3]) unreachable)
      (world "/a.pdb" (answering 404 200 [1, 2, 3]) unreachable) cubeUrl "cache/a.pdb"
      (fresh noFiles) 200 404 rfl rfl rfl rfl rfl⟩

end Symcache
